import Mathlib

/-!
# Verification of the J-PAKE session implementation

A shallow embedding of `jpake/__init__.py` (the J-PAKE protocol engine): the
zero-knowledge-proof primitive, the default challenge-hash transcript encoding,
and the three-round session state machine, together with proofs of the
specification's claims about them.

Machine integers are modelled as `Nat` (Python integers are unbounded);
Python's integer `%` on possibly negative values is modelled on `Int` with
explicit conversion.  The injectable challenge-hash function and the injectable
randomness source are modelled as explicit parameters, following the spec's
capability-interface description.  The digest primitive (`sha1`) is out of
scope per the spec and is a parameter of the default challenge hash.
-/

set_option maxRecDepth 10000

namespace JPake

/-- A byte string: Python `bytes`, each entry intended to be `< 256`. -/
abbrev Bytes := List Nat

/-- Python's three-argument `pow(b, e, m)` for a nonnegative exponent. -/
def powMod (b e m : Nat) : Nat := b ^ e % m

/-- Python's `%` applied to an integer and a positive natural modulus: the
result is the canonical residue in `[0, m)`. -/
def pyMod (a : Int) (m : Nat) : Nat := (a % (m : Int)).toNat

/-- Python's `num.bit_length()` needs a structurally recursive helper (on fuel) so that
it is kernel-reducible on concrete inputs. -/
def bitLenAux : Nat → Nat → Nat
  | 0, _ => 0
  | fuel + 1, n => if n = 0 then 0 else bitLenAux fuel (n / 2) + 1

/-- Python's `num.bit_length()`. -/
def bitLen (n : Nat) : Nat := bitLenAux n n

/-- Modular inverse as computed by Python's `pow(a, -1, m)`: defined exactly
when `a` is invertible modulo `m`, in which case it is the unique inverse,
here expressed through Euler's theorem. -/
def modInverse (a m : Nat) : Option Nat :=
  if Nat.gcd (a % m) m = 1 then some (powMod (a % m) (Nat.totient m - 1) m) else none

/-- Python's three-argument `pow` with a possibly negative exponent: a negative
exponent requires the base to be invertible modulo `m` (`ValueError` otherwise). -/
def powModInt (b : Nat) (e : Int) (m : Nat) : Option Nat :=
  if 0 ≤ e then some (powMod b e.toNat m)
  else (modInverse b m).map fun i => powMod i (-e).toNat m

/-- Modelled from the spec: the error taxonomy of spec section 7 together with the
Python builtin exceptions the source raises.  The module `jpake/exceptions.py` is
imported by the source but is not among the sources; spec section 7 names
`OutOfSequence`, `InvalidProof` and `DuplicateSigner`, and uses `InvalidInput`
for malformed or degenerate inputs, which the source realises with the Python
builtins `ValueError` and `TypeError`.  `attributeError` models Python's
builtin `AttributeError` raised by unavailable lazy attributes. -/
inductive Err where
  | outOfSequence
  | invalidProof
  | duplicateSigner
  | valueError
  | typeError
  | attributeError
deriving DecidableEq, Repr

/-- The spec's `InvalidInput` category, realised in the source by Python's
builtin `ValueError` and `TypeError`. -/
def Err.isInvalidInput : Err → Bool
  | .valueError => true
  | .typeError => true
  | _ => false

/-- A zero-knowledge proof as produced by `JPAKE._zkp`: the dictionary
`{'gr': …, 'b': …, 'id': …}` (commitment, blind, signer identity). -/
structure Proof where
  gr : Nat
  b : Nat
  id : Bytes
deriving DecidableEq, Repr, Inhabited

/-- The injectable challenge-hash capability: `(g, gr, gx, signer_id) ↦ h`.
The source calls it as `self._zkp_hash(g=…, gr=…, gx=…, signer_id=…)`. -/
abbrev HashFn := Nat → Nat → Nat → Bytes → Nat

/-- The injectable randomness source, modelled as a pre-drawn stream of values
with a cursor (reads past the end return 0).  `draw n` models
`random.randrange(n)`: a value in `[0, n)` for `n > 0`. -/
structure Rng where
  vals : List Nat
  idx : Nat
deriving DecidableEq, Repr

/-- One draw from the randomness source (`self._rng.randrange(n)`). -/
def Rng.draw (r : Rng) (n : Nat) : Nat × Rng :=
  ((r.vals.getD r.idx 0) % n, { r with idx := r.idx + 1 })

/-- The round-1 message dictionary produced by `JPAKE.one`. -/
structure Round1Msg where
  gx1 : Nat
  zkp_x1 : Proof
  gx2 : Nat
  zkp_x2 : Proof
deriving DecidableEq, Repr, Inhabited

/-- The round-2 message dictionary produced by `JPAKE.two`. -/
structure Round2Msg where
  A : Nat
  zkp_A : Proof
deriving DecidableEq, Repr, Inhabited

/-- The mutable session state of a `JPAKE` object.  Lazily computed attributes
(absent until `_compute_one` / `_compute_two` / `_compute_three` set them) are
`Option`-valued; the remote round-1 values are plain numbers guarded by the
`waiting_one` gate exactly as in the source, while `remote_A` is `Option`
because the source can store `None` there on the unverified path. -/
structure Session where
  p : Nat
  g : Nat
  q : Nat
  signer_id : Bytes
  x1 : Nat
  x2 : Nat
  waiting_secret : Bool := true
  waiting_one : Bool := true
  waiting_two : Bool := true
  secret : Nat := 0
  gx1? : Option Nat := none
  gx2? : Option Nat := none
  zkp_x1? : Option Proof := none
  zkp_x2? : Option Proof := none
  A? : Option Nat := none
  zkp_A? : Option Proof := none
  remote_gx1 : Nat := 0
  remote_gx2 : Nat := 0
  remote_zkp_x1 : Option Proof := none
  remote_zkp_x2 : Option Proof := none
  remote_A : Option Nat := none
  remote_zkp_A : Option Proof := none
  K? : Option Nat := none
  rng : Rng
deriving DecidableEq, Repr

/-- Session construction (`JPAKE.__init__`) with explicit exponents and signer identity and no resume
arguments (the resume paths call the ordinary operations, modelled separately).
The constructor's random defaults for `x1`, `x2` and `signer_id` are draws from
the injected source; here they are supplied explicitly. -/
def mkSession (p g q : Nat) (signer_id : Bytes) (x1 x2 : Nat) (rng : Rng) : Session :=
  { p := p, g := g, q := q, signer_id := signer_id, x1 := x1, x2 := x2, rng := rng }

/-- Proof generation (`JPAKE._zkp`): Schnorr-style proof of knowledge of `exponent` such that
`generator ^ exponent = gx (mod p)`.  `b = (r - exponent * h) % q` is Python
integer arithmetic (the subtraction may be negative before reduction). -/
def zkp (H : HashFn) (s : Session) (generator exponent : Nat) (gx0 : Option Nat) :
    Proof × Session :=
  let p := s.p
  let q := s.q
  let gx := match gx0 with
    | some v => v
    | none => powMod generator exponent p
  let rr := s.rng.draw q
  let r := rr.1
  let gr := powMod generator r p
  let h := H generator gr gx s.signer_id
  let b := pyMod ((r : Int) - (exponent : Int) * (h : Int)) q
  ({ gr := gr, b := b, id := s.signer_id }, { s with rng := rr.2 })

/-- Proof verification (`JPAKE._verify_zkp`): `none` is acceptance, `some e` the raised error.  The
signer-identity comparison comes before the challenge is recomputed. -/
def verifyZkp (H : HashFn) (p : Nat) (self_id : Bytes) (generator gx : Nat)
    (proof : Proof) : Option Err :=
  let gr := proof.gr
  let b := proof.b
  if proof.id = self_id then some .duplicateSigner
  else
    let h := H generator gr gx proof.id
    let gb := powMod generator b p
    let y := powMod gx h p
    if gr ≠ gb * y % p then some .invalidProof else none

/-- Secret installation (`JPAKE.set_secret`).  The source's text/bytes-to-integer coercion is not
modelled (the spec treats the integer form as the contract); `none` models
passing `None`, which raises `ValueError`. -/
def setSecret (s : Session) (value : Option Nat) : Option Err × Session :=
  if !s.waiting_secret then (some .outOfSequence, s)
  else
    match value with
    | none => (some .valueError, s)
    | some v => (none, { s with secret := v, waiting_secret := false })

/-- Round-1 computation (`JPAKE._compute_one`): computes `gx1`, `gx2` and their proofs,
unconditionally overwriting any previously cached values. -/
def computeOne (H : HashFn) (s : Session) : Session :=
  let gx1 := powMod s.g s.x1 s.p
  let gx2 := powMod s.g s.x2 s.p
  let s1 := { s with gx1? := some gx1, gx2? := some gx2 }
  let z1 := zkp H s1 s1.g s1.x1 (some gx1)
  let z2 := zkp H z1.2 z1.2.g z1.2.x2 (some gx2)
  { z2.2 with zkp_x1? := some z1.1, zkp_x2? := some z2.1 }

/-- The lazy `gx1` property: computed by `_compute_one` on first access,
cached thereafter. -/
def gx1prop (H : HashFn) (s : Session) : Nat × Session :=
  match s.gx1? with
  | some v => (v, s)
  | none =>
    let s' := computeOne H s
    (s'.gx1?.getD 0, s')

/-- The lazy `gx2` property. -/
def gx2prop (H : HashFn) (s : Session) : Nat × Session :=
  match s.gx2? with
  | some v => (v, s)
  | none =>
    let s' := computeOne H s
    (s'.gx2?.getD 0, s')

/-- Round-1 production (`JPAKE.one`): produce the round-1 message.  Note the source calls
`self._compute_one()` unconditionally, not through the cached properties. -/
def one (H : HashFn) (s : Session) : Round1Msg × Session :=
  let s' := computeOne H s
  ({ gx1 := s'.gx1?.getD 0, zkp_x1 := s'.zkp_x1?.getD default,
     gx2 := s'.gx2?.getD 0, zkp_x2 := s'.zkp_x2?.getD default }, s')

/-- The tail of `JPAKE.process_one` after argument routing (source lines
388-408): reduce both values mod `p`, reject `remote_gx2 ≡ 1`, optionally
verify both proofs, then commit all stored fields and clear the gate. -/
def processOneChecked (H : HashFn) (s : Session) (v1 v2 : Nat)
    (rzkp1 rzkp2 : Option Proof) (verify : Bool) : Option Err × Session :=
  let p := s.p
  let r1 := v1 % p
  let r2 := v2 % p
  if r2 = 1 then (some .valueError, s)
  else
    let verdict : Option Err :=
      if verify then
        match rzkp1, rzkp2 with
        | some z1, some z2 =>
          match verifyZkp H p s.signer_id s.g r1 z1 with
          | some e => some e
          | none => verifyZkp H p s.signer_id s.g r2 z2
        | _, _ => some .typeError
      else none
    match verdict with
    | some e => (some e, s)
    | none =>
      (none, { s with remote_gx1 := r1, remote_gx2 := r2,
                      remote_zkp_x1 := rzkp1, remote_zkp_x2 := rzkp2,
                      waiting_one := false })

/-- Round-1 consumption (`JPAKE.process_one`).  `data` is the bundled message dictionary; the other
arguments are the discrete keyword forms.  Passing neither a dictionary nor
both discrete values raises `TypeError` (`None %= p` in the source); a
dictionary together with any discrete argument raises `TypeError`; a
dictionary with `verify=False` raises `ValueError`. -/
def processOne (H : HashFn) (s : Session) (data : Option Round1Msg)
    (rgx1 rgx2 : Option Nat) (rzkp1 rzkp2 : Option Proof) (verify : Bool) :
    Option Err × Session :=
  if !s.waiting_one then (some .outOfSequence, s)
  else
    match data with
    | some d =>
      if rgx1.isSome || rgx2.isSome || rzkp1.isSome || rzkp2.isSome then
        (some .typeError, s)
      else if !verify then (some .valueError, s)
      else processOneChecked H s d.gx1 d.gx2 (some d.zkp_x1) (some d.zkp_x2) true
    | none =>
      match rgx1, rgx2 with
      | some v1, some v2 => processOneChecked H s v1 v2 rzkp1 rzkp2 verify
      | _, _ => (some .typeError, s)

/-- Round-2 computation (`JPAKE._compute_two`): requires round 1 consumed and the secret set, then
computes `A = t1 ^ t2 mod p` with `t1 = gx1·remote_gx1·remote_gx2 mod p` and
`t2 = x2·secret mod p` (modulus `p`, not `q`, preserved from the source), and
a proof of knowledge of `t2` with `t1` as generator. -/
def computeTwo (H : HashFn) (s : Session) : Option Err × Session :=
  if s.waiting_one then (some .outOfSequence, s)
  else if s.waiting_secret then (some .outOfSequence, s)
  else
    let p := s.p
    let g1 := gx1prop H s
    let s1 := g1.2
    let t1 := ((g1.1 * s1.remote_gx1) % p) * s1.remote_gx2 % p
    let t2 := s1.x2 * s1.secret % p
    let A := powMod t1 t2 p
    let z := zkp H s1 t1 t2 (some A)
    (none, { z.2 with A? := some A, zkp_A? := some z.1 })

/-- Round-2 production (`JPAKE.two`): produce the round-2 message.  Calls `_compute_two`
unconditionally; sequencing errors propagate as raised. -/
def two (H : HashFn) (s : Session) : Except Err Round2Msg × Session :=
  match computeTwo H s with
  | (some e, s') => (.error e, s')
  | (none, s') => (.ok { A := s'.A?.getD 0, zkp_A := s'.zkp_A?.getD default }, s')

/-- The final commit of `JPAKE.process_two`: stores `remote_A` exactly as
passed (unreduced) and clears the gate. -/
def commitTwo (s : Session) (rA : Option Nat) (rz : Option Proof) : Session :=
  { s with remote_A := rA, remote_zkp_A := rz, waiting_two := false }

/-- Round-2 consumption (`JPAKE.process_two`).  Note: unlike `process_one`, the source performs no
`verify`-with-dictionary check here; a bundled message with `verify=False` is
accepted.  When verifying, the expected generator is
`gx1·gx2·remote_gx1 mod p` (the lazy local properties may compute here). -/
def processTwo (H : HashFn) (s : Session) (data : Option Round2Msg)
    (rA : Option Nat) (rzkpA : Option Proof) (verify : Bool) :
    Option Err × Session :=
  if s.waiting_one then (some .outOfSequence, s)
  else if !s.waiting_two then (some .outOfSequence, s)
  else
    match data with
    | some d =>
      if rA.isSome || rzkpA.isSome then (some .typeError, s)
      else if verify then
        let g1 := gx1prop H s
        let g2 := gx2prop H g1.2
        let s2 := g2.2
        let generator := ((g1.1 * g2.1) % s.p) * s2.remote_gx1 % s.p
        match verifyZkp H s.p s2.signer_id generator d.A d.zkp_A with
        | some e => (some e, s2)
        | none => (none, commitTwo s2 (some d.A) (some d.zkp_A))
      else (none, commitTwo s (some d.A) (some d.zkp_A))
    | none =>
      if verify then
        let g1 := gx1prop H s
        let g2 := gx2prop H g1.2
        let s2 := g2.2
        let generator := ((g1.1 * g2.1) % s.p) * s2.remote_gx1 % s.p
        match rA, rzkpA with
        | some a, some z =>
          match verifyZkp H s.p s2.signer_id generator a z with
          | some e => (some e, s2)
          | none => (none, commitTwo s2 rA rzkpA)
        | _, _ => (some .typeError, s2)
      else (none, commitTwo s rA rzkpA)

/-- Key derivation (`JPAKE._compute_three`).  `q - self.secret` is Python
integer subtraction (possibly negative), fed to `pow` whose negative-exponent
case requires invertibility; `None` stored as `remote_A` would raise
`TypeError` at the multiplication. -/
def computeThree (s : Session) : Option Err × Session :=
  if s.waiting_two then (some .outOfSequence, s)
  else
    let p := s.p
    let q := s.q
    match powModInt s.remote_gx2 ((s.x2 : Int) * ((q : Int) - (s.secret : Int))) p with
    | none => (some .valueError, s)
    | some bottom =>
      match s.remote_A with
      | none => (some .typeError, s)
      | some a =>
        let inner := a * bottom % p
        let K := powMod inner s.x2 p
        (none, { s with K? := some K })

/-- The lazy `K` property: an `OutOfSequence` raised by the key computation is
converted to `AttributeError` ("K is not available yet"); other errors
propagate unchanged. -/
def Kprop (s : Session) : Except Err (Nat × Session) :=
  match s.K? with
  | some k => .ok (k, s)
  | none =>
    match computeThree s with
    | (some .outOfSequence, _) => .error .attributeError
    | (some e, _) => .error e
    | (none, s') => .ok (s'.K?.getD 0, s')

/-! ## The default challenge hash (`_default_zkp_hash_fn`) -/

/-- Python's `int.from_bytes(bs, 'big')`. -/
def fromBytes (bs : Bytes) : Nat := bs.foldl (fun acc b => acc * 256 + b) 0

/-- Big-endian byte encoding of fixed width `k` (the width is always large
enough at every use below, so no truncation occurs). -/
def bytesBE (n : Nat) : Nat → Bytes
  | 0 => []
  | k + 1 => bytesBE (n / 256) k ++ [n % 256]

/-- The source's `_to_bytes`: `num.to_bytes(num.bit_length() // 8 + 1, byteorder='big')`. -/
def toBytesPy (n : Nat) : Bytes := bytesBE n (bitLen n / 8 + 1)

/-- The `pascal` helper inside `_default_zkp_hash_fn`: a 2-byte big-endian
length field followed by the string; `ValueError` (here `none`) when the
length does not fit in 16 bits. -/
def pascal (s : Bytes) : Option Bytes :=
  if s.length ≥ 2 ^ 16 then none else some (bytesBE s.length 2 ++ s)

/-- The byte transcript hashed by `_default_zkp_hash_fn`: the concatenation of
the length-prefixed encodings of `g`, `gr`, `gx` and the raw signer identity. -/
def defaultZkpTranscript (g gr gx : Nat) (signer_id : Bytes) : Option Bytes := do
  let p1 ← pascal (toBytesPy g)
  let p2 ← pascal (toBytesPy gr)
  let p3 ← pascal (toBytesPy gx)
  let p4 ← pascal signer_id
  return p1 ++ p2 ++ p3 ++ p4

/-- The default challenge hash (`_default_zkp_hash_fn`), parametric in the digest primitive (`sha1` in the
source; the hash function itself is out of scope per the spec). -/
def defaultZkpHash (digest : Bytes → Bytes) (g gr gx : Nat) (signer_id : Bytes) :
    Option Nat :=
  (defaultZkpTranscript g gr gx signer_id).map fun s => fromBytes (digest s)

/-- The minimal big-endian byte representation of an integer, as the claim's
words prescribe: `⌈bit_length / 8⌉` bytes, with no leading zero byte. -/
def minimalBytes (n : Nat) : Bytes := bytesBE n ((bitLen n + 7) / 8)

/-- The transcript as the claim describes it: each numeric component in its
minimal big-endian representation, length-prefixed; the signer identity
length-prefixed unchanged. -/
def claimZkpTranscript (g gr gx : Nat) (signer_id : Bytes) : Option Bytes := do
  let p1 ← pascal (minimalBytes g)
  let p2 ← pascal (minimalBytes gr)
  let p3 ← pascal (minimalBytes gx)
  let p4 ← pascal signer_id
  return p1 ++ p2 ++ p3 ++ p4

/-- The numeric component encoding of the amended claim: the minimal
big-endian representation preceded by one zero byte whenever the bit length is
a multiple of 8 (in particular, a single zero byte for zero). -/
def amendedEncode (n : Nat) : Bytes :=
  (if bitLen n % 8 = 0 then [0] else []) ++ minimalBytes n

/-- The transcript as the amended claim describes it. -/
def amendedZkpTranscript (g gr gx : Nat) (signer_id : Bytes) : Option Bytes := do
  let p1 ← pascal (amendedEncode g)
  let p2 ← pascal (amendedEncode gr)
  let p3 ← pascal (amendedEncode gx)
  let p4 ← pascal signer_id
  return p1 ++ p2 ++ p3 ++ p4

/-- The challenge hash as the amended claim describes it: hash the amended
transcript with the digest primitive and read the digest as a big-endian
integer. -/
def amendedZkpHash (digest : Bytes → Bytes) (g gr gx : Nat) (signer_id : Bytes) :
    Option Nat :=
  (amendedZkpTranscript g gr gx signer_id).map fun s => fromBytes (digest s)

/-! ## The canonical honest exchange (spec section 8, correctness) -/

/-- The canonical honest round1 → round1, round2 → round2 exchange between two
sessions over the same parameter set with the same secret: each side produces
its round-1 message, consumes the other's (bundled, verified), produces its
round-2 message, consumes the other's, and derives `K`.  In this pure
embedding the two sessions interact only through the exchanged message values,
so every interleaving of the per-session steps yields exactly these two keys;
the sequencing below is therefore representative of both interleavings (and
swapping the roles of the two parties is the same function with its arguments
exchanged). -/
def runExchange (H : HashFn) (p g q : Nat) (ida idb : Bytes)
    (x1a x2a x1b x2b secret : Nat) (ra rb : Rng) : Except Err (Nat × Nat) :=
  let sa0 := mkSession p g q ida x1a x2a ra
  let sb0 := mkSession p g q idb x1b x2b rb
  match setSecret sa0 (some secret) with
  | (some e, _) => .error e
  | (none, sa1) =>
  match setSecret sb0 (some secret) with
  | (some e, _) => .error e
  | (none, sb1) =>
  let ma := one H sa1
  let mb := one H sb1
  match processOne H ma.2 (some mb.1) none none none none true with
  | (some e, _) => .error e
  | (none, sa2) =>
  match processOne H mb.2 (some ma.1) none none none none true with
  | (some e, _) => .error e
  | (none, sb2) =>
  match two H sa2 with
  | (.error e, _) => .error e
  | (.ok m2a, sa3) =>
  match two H sb2 with
  | (.error e, _) => .error e
  | (.ok m2b, sb3) =>
  match processTwo H sa3 (some m2b) none none true with
  | (some e, _) => .error e
  | (none, sa4) =>
  match processTwo H sb3 (some m2a) none none true with
  | (some e, _) => .error e
  | (none, sb4) =>
  match Kprop sa4 with
  | .error e => .error e
  | .ok ka =>
  match Kprop sb4 with
  | .error e => .error e
  | .ok kb => .ok (ka.1, kb.1)

/-! ## Concrete instances used by witnesses and counterexamples -/

/-- A degenerate injected challenge hash (constant zero), used only to build
concrete witness runs; the hash function is an injectable capability. -/
def constHash : HashFn := fun _ _ _ _ => 0

/-- A small deterministic injected randomness stream. -/
def rngA : Rng := { vals := [5, 9, 4, 7, 2, 8], idx := 0 }

/-- Another small deterministic injected randomness stream. -/
def rngB : Rng := { vals := [3, 6, 1, 9, 5, 4], idx := 0 }

/-- A tiny valid parameter set for witnesses: `p = 13`, `q = 3`, `g = 3`
(`3^3 = 27 ≡ 1 (mod 13)`, and `q * q = 9 ≤ 13`). -/
def tinySession (id0 : Bytes) (x1 x2 : Nat) (rng : Rng) : Session :=
  mkSession 13 3 3 id0 x1 x2 rng

/-- The persistent protocol state of a session: the gates, parameters,
identity, exponents, secret, consumed remote values and derived key —
everything except the lazily cached local values (`gx1`, `gx2`, their proofs,
`A`, its proof) and the randomness cursor. -/
structure SessionCore where
  p : Nat
  g : Nat
  q : Nat
  signer_id : Bytes
  x1 : Nat
  x2 : Nat
  waiting_secret : Bool
  waiting_one : Bool
  waiting_two : Bool
  secret : Nat
  remote_gx1 : Nat
  remote_gx2 : Nat
  remote_zkp_x1 : Option Proof
  remote_zkp_x2 : Option Proof
  remote_A : Option Nat
  remote_zkp_A : Option Proof
  K? : Option Nat
deriving DecidableEq, Repr

/-- Project a session onto its persistent protocol state. -/
def Session.core (s : Session) : SessionCore :=
  { p := s.p, g := s.g, q := s.q, signer_id := s.signer_id, x1 := s.x1,
    x2 := s.x2, waiting_secret := s.waiting_secret,
    waiting_one := s.waiting_one, waiting_two := s.waiting_two,
    secret := s.secret, remote_gx1 := s.remote_gx1,
    remote_gx2 := s.remote_gx2, remote_zkp_x1 := s.remote_zkp_x1,
    remote_zkp_x2 := s.remote_zkp_x2, remote_A := s.remote_A,
    remote_zkp_A := s.remote_zkp_A, K? := s.K? }

/-- A session that has consumed round 1 (with remote values from the tiny
group) but has never produced its own round-1 message: its local lazy caches
are still empty.  Used to exhibit the lazy-compute side effect of a failing
verifying `process_two`. -/
def consumedOneSession : Session :=
  { tinySession [97] 1 1 rngA with
      waiting_one := false, remote_gx1 := 3, remote_gx2 := 9,
      waiting_secret := false, secret := 2 }

/-- A round-2 message whose proof fails verification against
`consumedOneSession` under `constHash`. -/
def badRound2Msg : Round2Msg :=
  { A := 5, zkp_A := { gr := 2, b := 0, id := [98] } }

/-! ## Claims -/

/-- C2: proof verification fails with `DuplicateSigner` exactly when the
proof's signer identity equals the verifier's own (for every injected
challenge hash, so the check precedes and is independent of the arithmetic);
otherwise it accepts if and only if the proof's commitment equals
`G^blind · Gx^h mod p` with `h` recomputed from
`(generator, commitment, public value, signer_id)`, failing with
`InvalidProof` on mismatch. -/
theorem verify_zkp_spec (H : HashFn) (p : Nat) (self_id : Bytes)
    (generator gx : Nat) (pf : Proof) :
    (verifyZkp H p self_id generator gx pf = some .duplicateSigner ↔
      pf.id = self_id) ∧
    (verifyZkp H p self_id generator gx pf = none ↔
      pf.id ≠ self_id ∧
      pf.gr = powMod generator pf.b p *
        powMod gx (H generator pf.gr gx pf.id) p % p) ∧
    (verifyZkp H p self_id generator gx pf = some .invalidProof ↔
      pf.id ≠ self_id ∧
      pf.gr ≠ powMod generator pf.b p *
        powMod gx (H generator pf.gr gx pf.id) p % p) := by
  unfold verifyZkp
  split_ifs <;> simp_all

/-- C8: with round 1 still unconsumed, `process_one` fails with the spec's
`InvalidInput` (the source's builtin `ValueError`) whenever the received
`remote_gx2` is congruent to 1 modulo `p` — on both calling paths, whether or
not verification is enabled and whatever the supplied proofs are — and the
session state, in particular the round-1 gate, is exactly unchanged. -/
theorem process_one_degenerate_gx2 (H : HashFn) (s : Session)
    (v1 v2 : Nat) (z1 z2 : Option Proof) (verify : Bool) (m : Round1Msg)
    (hw : s.waiting_one = true) :
    (v2 % s.p = 1 →
      processOne H s none (some v1) (some v2) z1 z2 verify =
        (some .valueError, s)) ∧
    (m.gx2 % s.p = 1 →
      processOne H s (some m) none none none none true =
        (some .valueError, s)) ∧
    Err.valueError.isInvalidInput = true := by
  refine ⟨fun h1 => ?_, fun h2 => ?_, rfl⟩ <;>
    simp [processOne, processOneChecked, hw, *]

/-- Witness for `process_one_degenerate_gx2` at a concrete session: `14 % 13 = 1`. -/
theorem process_one_degenerate_gx2_witness :
    processOne constHash (tinySession [97] 1 1 rngA) none (some 3) (some 14)
        none none false = (some .valueError, tinySession [97] 1 1 rngA) ∧
    processOne constHash (tinySession [97] 1 1 rngA)
        (some { gx1 := 3, zkp_x1 := default, gx2 := 14, zkp_x2 := default })
        none none none none true = (some .valueError, tinySession [97] 1 1 rngA) :=
  ⟨(process_one_degenerate_gx2 constHash (tinySession [97] 1 1 rngA) 3 14
      none none false default (by decide)).1 (by decide),
   (process_one_degenerate_gx2 constHash (tinySession [97] 1 1 rngA) 3 14
      none none true
      { gx1 := 3, zkp_x1 := default, gx2 := 14, zkp_x2 := default }
      (by decide)).2.1 (by decide)⟩

/-- C9: `process_one` treats un-reduced round-1 values (`v + k·p`) exactly as
their canonically reduced forms, on both calling paths: the whole result
(error or success, and the entire resulting session state) coincides, and on
success the stored remote values are the reduced ones. -/
theorem process_one_unreduced (H : HashFn) (s : Session) (v1 v2 k : Nat)
    (z1 z2 : Option Proof) (verify : Bool) (m : Round1Msg) (s' : Session) :
    (processOne H s none (some (v1 + k * s.p)) (some (v2 + k * s.p)) z1 z2 verify =
      processOne H s none (some (v1 % s.p)) (some (v2 % s.p)) z1 z2 verify) ∧
    (processOne H s (some { m with gx1 := m.gx1 + k * s.p, gx2 := m.gx2 + k * s.p })
        none none none none true =
      processOne H s (some { m with gx1 := m.gx1 % s.p, gx2 := m.gx2 % s.p })
        none none none none true) ∧
    (processOne H s none (some v1) (some v2) z1 z2 verify = (none, s') →
      s'.remote_gx1 = v1 % s.p ∧ s'.remote_gx2 = v2 % s.p) := by
  refine ⟨?_, ?_, fun h => ?_⟩
  · simp [processOne, processOneChecked, Nat.add_mul_mod_self_right, Nat.mod_mod_of_dvd]
  · simp [processOne, processOneChecked, Nat.add_mul_mod_self_right, Nat.mod_mod_of_dvd]
  · unfold processOne processOneChecked at h
    split at h
    · exact absurd h (by simp)
    · dsimp only at h
      split at h
      · exact absurd h (by simp)
      · split at h
        · exact absurd h (by simp)
        · injection h with _ h2
          subst h2
          exact ⟨rfl, rfl⟩

/-- C5 counterexample: reading `K` before round 2 is consumed does not fail
with `OutOfSequence` as the claim states: the `K` accessor converts the
underlying `OutOfSequence` into Python's `AttributeError`. -/
theorem read_K_attribute_error :
    Kprop (tinySession [97] 1 1 rngA) = .error .attributeError ∧
    Err.attributeError ≠ Err.outOfSequence := ⟨rfl, by decide⟩

/-- C5 (amended): producing round 2 (`two`) fails with `OutOfSequence` for
each omitted prerequisite independently (round 1 not consumed; no secret set),
and the key computation (`_compute_three`) fails with `OutOfSequence` when
round 2 is not consumed — but reading the `K` attribute surfaces that
`OutOfSequence` as `AttributeError`. -/
theorem sequencing_guards (H : HashFn) (s : Session) :
    (s.waiting_one = true → (two H s).1 = .error .outOfSequence) ∧
    (s.waiting_one = false → s.waiting_secret = true →
      (two H s).1 = .error .outOfSequence) ∧
    (s.waiting_two = true → (computeThree s).1 = some .outOfSequence) ∧
    (s.waiting_two = true → s.K? = none → Kprop s = .error .attributeError) := by
  refine ⟨fun h => by simp [two, computeTwo, h],
          fun h1 h2 => by simp [two, computeTwo, h1, h2],
          fun h => by simp [computeThree, h],
          fun h hK => ?_⟩
  unfold Kprop
  rw [hK]
  simp [computeThree, h]

/-- Witness for `sequencing_guards` on a freshly constructed session. -/
theorem sequencing_guards_witness :
    (two constHash (tinySession [97] 1 1 rngA)).1 = .error .outOfSequence ∧
    Kprop (tinySession [97] 1 1 rngA) = .error .attributeError :=
  ⟨(sequencing_guards constHash (tinySession [97] 1 1 rngA)).1 rfl,
   (sequencing_guards constHash (tinySession [97] 1 1 rngA)).2.2.2 rfl rfl⟩

/-- C6 counterexample: `process_two` accepts a bundled message dictionary
together with `verify=False` — no error is raised and the round-2 gate is set,
contrary to the claim that every consume operation rejects this combination. -/
theorem process_two_dict_unverified_accepted :
    (processTwo constHash consumedOneSession (some badRound2Msg) none none false).1 =
      none ∧
    (processTwo constHash consumedOneSession (some badRound2Msg) none none
      false).2.waiting_two = false := ⟨rfl, rfl⟩

/-- C6 (amended): only `process_one` rejects a bundled message dictionary
combined with `verify=False` (with `ValueError`, before any state change);
`process_two` performs no such check and accepts and commits the bundled
values unverified. -/
theorem skip_verify_dict_asymmetry (H : HashFn) (s : Session)
    (d1 : Round1Msg) (d2 : Round2Msg) :
    (s.waiting_one = true →
      processOne H s (some d1) none none none none false =
        (some .valueError, s)) ∧
    (s.waiting_one = false → s.waiting_two = true →
      processTwo H s (some d2) none none false =
        (none, commitTwo s (some d2.A) (some d2.zkp_A))) :=
  ⟨fun h => by simp [processOne, h],
   fun h1 h2 => by simp [processTwo, h1, h2]⟩

/-- Witness for `skip_verify_dict_asymmetry` at concrete sessions. -/
theorem skip_verify_dict_asymmetry_witness :
    processOne constHash (tinySession [97] 1 1 rngA)
        (some default) none none none none false =
      (some .valueError, tinySession [97] 1 1 rngA) ∧
    processTwo constHash consumedOneSession (some badRound2Msg) none none false =
      (none, commitTwo consumedOneSession (some badRound2Msg.A)
        (some badRound2Msg.zkp_A)) :=
  ⟨(skip_verify_dict_asymmetry constHash (tinySession [97] 1 1 rngA)
      default badRound2Msg).1 rfl,
   (skip_verify_dict_asymmetry constHash consumedOneSession
      default badRound2Msg).2 rfl rfl⟩

/-- The lazy `_compute_one` does not change the persistent protocol state. -/
theorem core_computeOne (H : HashFn) (s : Session) :
    (computeOne H s).core = s.core := rfl

/-- The lazy `gx1` property does not change the persistent protocol state. -/
theorem core_gx1prop (H : HashFn) (s : Session) :
    (gx1prop H s).2.core = s.core := by
  unfold gx1prop
  cases s.gx1? <;> rfl

/-- The lazy `gx2` property does not change the persistent protocol state. -/
theorem core_gx2prop (H : HashFn) (s : Session) :
    (gx2prop H s).2.core = s.core := by
  unfold gx2prop
  cases s.gx2? <;> rfl

/-- C7 counterexample: a failing `process_two` can change stored session
values.  On a session that has consumed round 1 but never produced its own
round-1 message, a verifying `process_two` whose proof check fails still
computes and caches the session's own lazy `gx1`/`gx2`/proofs (consuming
randomness) while reconstructing the expected generator, so the state after
the failed call differs from the state before it. -/
theorem process_two_lazy_mutation_on_failure :
    (processTwo constHash consumedOneSession (some badRound2Msg) none none true).1 =
      some .invalidProof ∧
    (processTwo constHash consumedOneSession (some badRound2Msg) none none true).2 ≠
      consumedOneSession := by
  refine ⟨rfl, ?_⟩
  decide

/-- A failing `processOneChecked` leaves the session unchanged. -/
theorem processOneChecked_err (H : HashFn) (s : Session) (v1 v2 : Nat)
    (z1 z2 : Option Proof) (vf : Bool) (e : Err) (s' : Session)
    (h : processOneChecked H s v1 v2 z1 z2 vf = (some e, s')) : s' = s := by
  unfold processOneChecked at h
  dsimp only at h
  split at h
  · injection h with _ h2; exact h2.symm
  · split at h
    · injection h with _ h2; exact h2.symm
    · exact absurd h (by simp)

/-- C7 (amended): no failing operation changes the persistent protocol state.
If `process_one` or `set_secret` fails with any error, the session is exactly
unchanged; if `process_two` fails, the gates, parameters, secret, stored
remote values and derived key are unchanged (`Session.core`), though a
verifying call may first have computed and cached the session's own lazy local
values while reconstructing the expected generator. -/
theorem ops_no_partial_commit (H : HashFn) (s : Session) (d1 : Option Round1Msg)
    (rgx1 rgx2 : Option Nat) (rz1 rz2 : Option Proof) (v1 : Bool)
    (d2 : Option Round2Msg) (rA : Option Nat) (rzA : Option Proof) (v2 : Bool)
    (sv : Option Nat) (e1 e2 e3 : Err) (s1 s2 s3 : Session) :
    (processOne H s d1 rgx1 rgx2 rz1 rz2 v1 = (some e1, s1) → s1 = s) ∧
    (setSecret s sv = (some e2, s2) → s2 = s) ∧
    (processTwo H s d2 rA rzA v2 = (some e3, s3) → s3.core = s.core) := by
  refine ⟨fun h => ?_, fun h => ?_, fun h => ?_⟩
  · unfold processOne at h
    split at h
    · injection h with _ h2; exact h2.symm
    · split at h
      · split at h
        · injection h with _ h2; exact h2.symm
        · split at h
          · injection h with _ h2; exact h2.symm
          · exact processOneChecked_err _ _ _ _ _ _ _ _ _ h
      · split at h
        · exact processOneChecked_err _ _ _ _ _ _ _ _ _ h
        · injection h with _ h2; exact h2.symm
  · unfold setSecret at h
    split at h
    · injection h with _ h2; exact h2.symm
    · split at h
      · injection h with _ h2; exact h2.symm
      · exact absurd h (by simp)
  · unfold processTwo at h
    split at h
    · injection h with _ h2; rw [← h2]
    · split at h
      · injection h with _ h2; rw [← h2]
      · split at h
        · -- bundled message
          split at h
          · injection h with _ h2; rw [← h2]
          · split at h
            · -- verify = true
              dsimp only at h
              split at h
              · injection h with _ h2
                rw [← h2, core_gx2prop, core_gx1prop]
              · exact absurd h (by simp)
            · exact absurd h (by simp)
        · -- discrete arguments
          split at h
          · -- verify = true
            dsimp only at h
            split at h
            · split at h
              · injection h with _ h2
                rw [← h2, core_gx2prop, core_gx1prop]
              · exact absurd h (by simp)
            · injection h with _ h2
              rw [← h2, core_gx2prop, core_gx1prop]
          · exact absurd h (by simp)

/-- Witness for `ops_no_partial_commit`: the `process_two` conjunct at the
concrete failing verification of `process_two_lazy_mutation_on_failure`. -/
theorem ops_no_partial_commit_witness :
    ((processTwo constHash consumedOneSession (some badRound2Msg) none none
        true).2).core = consumedOneSession.core :=
  (ops_no_partial_commit constHash consumedOneSession none none none none none
      true (some badRound2Msg) none none true none .invalidProof .invalidProof
      .invalidProof consumedOneSession consumedOneSession
      ((processTwo constHash consumedOneSession (some badRound2Msg) none none
        true).2)).2.2 rfl

/-- C10: `process_two` with `verify=False` stores `remote_A` exactly as
passed, without reducing it modulo `p`; nevertheless the derived key `K` is
identical for `remote_A` and `remote_A + k·p`, because the key derivation
reduces `remote_A · inverse_factor` modulo `p` before the final
exponentiation. -/
theorem process_two_unreduced_A (H : HashFn) (s : Session) (a k : Nat)
    (zA : Option Proof) (h1 : s.waiting_one = false) (h2 : s.waiting_two = true) :
    processTwo H s none (some (a + k * s.p)) zA false =
      (none, commitTwo s (some (a + k * s.p)) zA) ∧
    (commitTwo s (some (a + k * s.p)) zA).remote_A = some (a + k * s.p) ∧
    ((Kprop (commitTwo s (some (a + k * s.p)) zA)).map fun r => r.1) =
      ((Kprop (commitTwo s (some a) zA)).map fun r => r.1) := by
  refine ⟨by simp [processTwo, h1, h2], rfl, ?_⟩
  unfold Kprop commitTwo computeThree
  dsimp only
  cases hK : s.K? with
  | some v => simp [Except.map]
  | none =>
    cases hb : powModInt s.remote_gx2
        ((s.x2 : Int) * ((s.q : Int) - (s.secret : Int))) s.p with
    | none => simp
    | some bottom =>
      have hred : (a + k * s.p) * bottom % s.p = a * bottom % s.p := by
        rw [Nat.add_mul, show k * s.p * bottom = k * bottom * s.p by ring,
            Nat.add_mul_mod_self_right]
      simp [powMod, hred, Except.map]

/-- Witness for `process_two_unreduced_A`: the key-equality conjunct at a
concrete consumed session. -/
theorem process_two_unreduced_A_witness :
    ((Kprop (commitTwo consumedOneSession
        (some (5 + 2 * consumedOneSession.p)) none)).map fun r => r.1) =
      ((Kprop (commitTwo consumedOneSession (some 5) none)).map fun r => r.1) :=
  (process_two_unreduced_A constHash consumedOneSession 5 2 none rfl rfl).2.2

/-- C4 counterexample: calling the round-1 producer twice does not return
identical output.  `one` invokes `_compute_one` unconditionally (it does not
go through the cached lazy properties), so the proofs are regenerated with
fresh randomness on the second call and differ. -/
theorem one_twice_differs :
    ((one constHash (tinySession [97] 1 1 rngA)).1 ≠
      (one constHash ((one constHash (tinySession [97] 1 1 rngA)).2)).1) ∧
    ((one constHash (tinySession [97] 1 1 rngA)).1.gx1 =
      (one constHash ((one constHash (tinySession [97] 1 1 rngA)).2)).1.gx1) := by
  constructor
  · decide
  · rfl

/-- A successful `computeTwo` passes its two gates, and then produces the state
whose `A` is determined by the session's group values; used to relate repeated
round-2 productions. -/
theorem computeTwo_ok (H : HashFn) (s : Session) (s' : Session)
    (h : computeTwo H s = (none, s')) :
    s.waiting_one = false ∧ s.waiting_secret = false ∧
    s' = (let g1 := gx1prop H s
          let t1 := ((g1.1 * g1.2.remote_gx1) % s.p) * g1.2.remote_gx2 % s.p
          let t2 := g1.2.x2 * g1.2.secret % s.p
          let A := powMod t1 t2 s.p
          let z := zkp H g1.2 t1 t2 (some A)
          { z.2 with A? := some A, zkp_A? := some z.1 }) := by
  unfold computeTwo at h
  split at h
  · exact absurd h (by simp)
  · split at h
    · exact absurd h (by simp)
    · refine ⟨by simp_all, by simp_all, ?_⟩
      injection h with _ h2
      exact h2.symm

/-- C4 (amended): repeated production is numerically identical only for the
group elements: calling `one` twice yields the same `gx1` and `gx2`, and
calling `two` twice yields the same `A` (they are deterministic
recomputations), but the zero-knowledge proofs are regenerated with fresh
randomness on every call — `one`/`two` call the compute step unconditionally,
bypassing the lazy caches, so repeated outputs differ in their proofs in
general. -/
theorem produce_deterministic_components (H : HashFn) (s : Session)
    (m m' : Round2Msg) (s1 s2 : Session) :
    ((one H s).1.gx1 = (one H (one H s).2).1.gx1 ∧
     (one H s).1.gx2 = (one H (one H s).2).1.gx2) ∧
    (two H s = (.ok m, s1) → two H s1 = (.ok m', s2) → m.A = m'.A) := by
  refine ⟨⟨rfl, rfl⟩, fun h h' => ?_⟩
  unfold two at h h'
  cases hc : computeTwo H s with
  | mk e1 t1 =>
    cases e1 with
    | some e => rw [hc] at h; exact absurd h (by simp)
    | none =>
      rw [hc] at h
      cases hc' : computeTwo H s1 with
      | mk e2 t2 =>
        cases e2 with
        | some e => rw [hc'] at h'; exact absurd h' (by simp)
        | none =>
          rw [hc'] at h'
          obtain ⟨hw1, hw2, hs'⟩ := computeTwo_ok H s t1 hc
          obtain ⟨hw1', hw2', hs''⟩ := computeTwo_ok H s1 t2 hc'
          injection h with hm hst
          injection h' with hm' hst'
          injection hm with hmA
          injection hm' with hmA'
          subst hmA
          subst hmA'
          subst hs'
          subst hs''
          subst hst
          cases hgx : s.gx1? <;>
            simp [gx1prop, computeOne, zkp, hgx, powMod]

/-- Witness for `produce_deterministic_components`: the repeated round-2
production on a concrete ready session. -/
theorem produce_deterministic_components_witness :
    ((two constHash consumedOneSession).1.toOption.map Round2Msg.A) =
      ((two constHash ((two constHash consumedOneSession).2)).1.toOption.map
        Round2Msg.A) := by
  have h2 := (produce_deterministic_components constHash consumedOneSession
    ((two constHash consumedOneSession).1.toOption.getD default)
    ((two constHash ((two constHash consumedOneSession).2)).1.toOption.getD default)
    ((two constHash consumedOneSession).2)
    ((two constHash ((two constHash consumedOneSession).2)).2)).2 rfl rfl
  exact congrArg (fun a => some a) h2

/-- The helper `bitLenAux` ignores the fuel once it is at least the argument. -/
theorem bitLenAux_congr : ∀ (f1 f2 n : Nat), n ≤ f1 → n ≤ f2 →
    bitLenAux f1 n = bitLenAux f2 n := by
  intro f1
  induction f1 with
  | zero =>
    intro f2 n h1 _
    have hn : n = 0 := by omega
    subst hn
    cases f2 <;> simp [bitLenAux]
  | succ f ih =>
    intro f2 n h1 h2
    cases n with
    | zero => cases f2 <;> simp [bitLenAux]
    | succ m =>
      cases f2 with
      | zero => omega
      | succ f2' =>
        simp only [bitLenAux, Nat.succ_ne_zero, if_false]
        rw [ih f2' ((m + 1) / 2) (by omega) (by omega)]

/-- The bit-length recurrence for a positive argument. -/
theorem bitLen_succ (n : Nat) (h : n ≠ 0) : bitLen n = bitLen (n / 2) + 1 := by
  cases n with
  | zero => exact absurd rfl h
  | succ m =>
    show bitLenAux (m + 1) (m + 1) = bitLenAux ((m + 1) / 2) ((m + 1) / 2) + 1
    simp only [bitLenAux, Nat.succ_ne_zero, if_false]
    rw [bitLenAux_congr m ((m + 1) / 2) ((m + 1) / 2) (by omega) (by omega)]

/-- Every natural number is below `2 ^ bitLen`. -/
theorem lt_two_pow_bitLen (n : Nat) : n < 2 ^ bitLen n := by
  induction n using Nat.strong_induction_on with
  | _ n ih =>
    rcases Nat.eq_zero_or_pos n with h | h
    · subst h; decide
    · rw [bitLen_succ n (by omega)]
      have ihh := ih (n / 2) (by omega)
      have h2 : 2 ^ (bitLen (n / 2) + 1) = 2 * 2 ^ bitLen (n / 2) := by ring
      omega

/-- A number below `256 ^ k` gains exactly one leading zero byte when encoded
with one extra byte of width. -/
theorem bytesBE_zero_cons : ∀ (k n : Nat), n < 256 ^ k →
    bytesBE n (k + 1) = 0 :: bytesBE n k := by
  intro k
  induction k with
  | zero =>
    intro n h
    have hn : n = 0 := by
      have : (256 : Nat) ^ 0 = 1 := by norm_num
      omega
    subst hn
    decide
  | succ k ih =>
    intro n h
    show bytesBE n (k + 1 + 1) = 0 :: bytesBE n (k + 1)
    have hdiv : n / 256 < 256 ^ k := by
      rw [Nat.div_lt_iff_lt_mul (by norm_num)]
      calc n < 256 ^ (k + 1) := h
        _ = 256 ^ k * 256 := by ring
    calc bytesBE n (k + 1 + 1) = bytesBE (n / 256) (k + 1) ++ [n % 256] := rfl
      _ = (0 :: bytesBE (n / 256) k) ++ [n % 256] := by rw [ih (n / 256) hdiv]
      _ = 0 :: (bytesBE (n / 256) k ++ [n % 256]) := by simp
      _ = 0 :: bytesBE n (k + 1) := rfl

/-- The source's `_to_bytes` is the amended-claim encoding: the minimal
big-endian representation preceded by one zero byte exactly when the bit
length is a multiple of 8. -/
theorem toBytesPy_eq_amendedEncode (n : Nat) : toBytesPy n = amendedEncode n := by
  unfold toBytesPy amendedEncode minimalBytes
  by_cases h8 : bitLen n % 8 = 0
  · rw [if_pos h8]
    have hlen : (bitLen n + 7) / 8 = bitLen n / 8 := by omega
    rw [hlen]
    have hb : n < 256 ^ (bitLen n / 8) := by
      have h1 := lt_two_pow_bitLen n
      have h2 : (2 : Nat) ^ bitLen n = 256 ^ (bitLen n / 8) := by
        rw [show (256 : Nat) = 2 ^ 8 from rfl, ← pow_mul]
        congr 1
        omega
      omega
    rw [bytesBE_zero_cons _ _ hb]
    rfl
  · rw [if_neg h8]
    have hlen : (bitLen n + 7) / 8 = bitLen n / 8 + 1 := by omega
    rw [hlen]
    simp

/-- C3 counterexample: the default challenge hash does not encode components
minimally.  `_to_bytes` uses `bit_length // 8 + 1` bytes, so any component
whose bit length is a multiple of 8 (e.g. 255) is encoded with a leading zero
byte, and the hashed transcript differs from the minimal-encoding transcript
the claim describes. -/
theorem default_hash_not_minimal :
    toBytesPy 255 = [0, 255] ∧ minimalBytes 255 = [255] ∧
    defaultZkpTranscript 255 1 1 [] ≠ claimZkpTranscript 255 1 1 [] := by
  refine ⟨by decide, by decide, by decide⟩

/-- C3 (amended): for every digest primitive, the default challenge hash
encodes each of generator, commitment and public value as its minimal
big-endian representation preceded by one zero byte whenever the component's
bit length is a multiple of 8 (a single zero byte for zero), each prefixed by
a 2-byte big-endian length field, rejecting any component whose encoded byte
length does not fit in 16 bits; it appends the length-prefixed signer
identity, hashes the concatenation, and returns the digest interpreted as a
big-endian integer. -/
theorem default_hash_amended_encoding (digest : Bytes → Bytes)
    (g gr gx : Nat) (id0 : Bytes) :
    defaultZkpHash digest g gr gx id0 = amendedZkpHash digest g gr gx id0 := by
  unfold defaultZkpHash amendedZkpHash defaultZkpTranscript amendedZkpTranscript
  rw [toBytesPy_eq_amendedEncode, toBytesPy_eq_amendedEncode,
      toBytesPy_eq_amendedEncode]

/-- Double reduction collapses. -/
theorem mod_mod (n p : Nat) : n % p % p = n % p := Nat.mod_mod_of_dvd n dvd_rfl

/-- With `g ^ q ≡ 1 (mod p)`, exponents of `g` reduce modulo `q`. -/
theorem pow_mod_cycle (p g q a : Nat) (hp : 1 < p) (hg : g ^ q % p = 1) :
    g ^ a % p = g ^ (a % q) % p := by
  conv_lhs => rw [← Nat.div_add_mod a q]
  rw [pow_add, pow_mul, Nat.mul_mod, Nat.pow_mod, hg, one_pow,
      Nat.mod_eq_of_lt hp, one_mul, mod_mod]

/-- Exponents congruent modulo `q` give equal powers of `g` modulo `p`. -/
theorem pow_mod_congr (p g q a b : Nat) (hp : 1 < p) (hg : g ^ q % p = 1)
    (hab : a % q = b % q) : g ^ a % p = g ^ b % p := by
  rw [pow_mod_cycle p g q a hp hg, hab, ← pow_mod_cycle p g q b hp hg]

/-- The `toNat` of the key-derivation exponent `x2·(q − secret)` when the
secret is in range. -/
theorem toNat_mul_sub (x q s : Nat) (h : s ≤ q) :
    ((x : Int) * ((q : Int) - (s : Int))).toNat = x * (q - s) := by
  rw [← Nat.cast_sub h, ← Nat.cast_mul]
  exact Int.toNat_natCast _

/-- The algebraic heart of J-PAKE key agreement for this source: with
`g ^ q ≡ 1 (mod p)`, a secret at most `q`, and the round-2 exponents
`x2·s` below `p` (so that the source's reduction of `t2` modulo `p` — rather
than `q` — is the identity), the two parties' derived keys coincide. -/
theorem key_symmetry (p g q x1a x2a x1b x2b s : Nat)
    (hp : 1 < p) (hg : g ^ q % p = 1) (hs : s ≤ q)
    (hba : x2a * s < p) (hbb : x2b * s < p) :
    ((g ^ x1b % p * (g ^ x1a % p) % p * (g ^ x2a % p) % p) ^ (x2b * s % p) % p *
        ((g ^ x2b % p) ^ (x2a * (q - s)) % p) % p) ^ x2a % p =
      ((g ^ x1a % p * (g ^ x1b % p) % p * (g ^ x2b % p) % p) ^ (x2a * s % p) % p *
        ((g ^ x2a % p) ^ (x2b * (q - s)) % p) % p) ^ x2b % p := by
  rw [Nat.mod_eq_of_lt hba, Nat.mod_eq_of_lt hbb]
  have h3 : ∀ e1 e2 e3 : Nat,
      g ^ e1 % p * (g ^ e2 % p) % p * (g ^ e3 % p) % p = g ^ (e1 + e2 + e3) % p :=
    fun e1 e2 e3 => by simp [Nat.mul_mod, pow_add, mod_mod]
  have h4 : ∀ e1 e2 : Nat, (g ^ e1 % p) ^ e2 % p = g ^ (e1 * e2) % p :=
    fun e1 e2 => by rw [← Nat.pow_mod, ← pow_mul]
  have h5 : ∀ e1 e2 : Nat, g ^ e1 % p * (g ^ e2 % p) % p = g ^ (e1 + e2) % p :=
    fun e1 e2 => by simp [Nat.mul_mod, pow_add, mod_mod]
  simp only [h3, h4, h5]
  apply pow_mod_congr p g q _ _ hp hg
  refine (ZMod.natCast_eq_natCast_iff _ _ _).mp ?_
  push_cast [Nat.cast_sub hs]
  simp [ZMod.natCast_self]
  ring

/-- A successful `set_secret` stores the value and clears the gate. -/
theorem setSecret_ok (s0 : Session) (v : Nat) (s' : Session)
    (h : setSecret s0 (some v) = (none, s')) :
    s' = { s0 with secret := v, waiting_secret := false } := by
  unfold setSecret at h
  split at h
  · exact absurd h (by simp)
  · injection h with _ h2
    exact h2.symm

/-- A successful verified bundled `process_one` commits the reduced remote
values and proofs and clears the round-1 gate. -/
theorem processOne_dict_ok (H : HashFn) (s : Session) (m : Round1Msg) (s' : Session)
    (h : processOne H s (some m) none none none none true = (none, s')) :
    s' = { s with remote_gx1 := m.gx1 % s.p, remote_gx2 := m.gx2 % s.p,
                  remote_zkp_x1 := some m.zkp_x1, remote_zkp_x2 := some m.zkp_x2,
                  waiting_one := false } := by
  unfold processOne processOneChecked at h
  split at h
  · exact absurd h (by simp)
  · dsimp only at h
    split at h
    · exact absurd h (by simp)
    · split at h
      · exact absurd h (by simp)
      · split at h
        · exact absurd h (by simp)
        · split at h
          · exact absurd h (by simp)
          · injection h with _ h2
            exact h2.symm

/-- The lazy `gx1` property returns the cached value when present. -/
theorem gx1prop_cached (H : HashFn) (s : Session) (v : Nat) (hc : s.gx1? = some v) :
    gx1prop H s = (v, s) := by
  unfold gx1prop
  rw [hc]

/-- A successful `two` on a session with a cached `gx1` produces the round-2
value `A = t1 ^ t2 mod p` and the state extended with `A` and its proof. -/
theorem two_ok (H : HashFn) (s : Session) (v : Nat) (m : Round2Msg) (s' : Session)
    (hc : s.gx1? = some v) (h : two H s = (.ok m, s')) :
    m.A = (v * s.remote_gx1 % s.p * s.remote_gx2 % s.p) ^ (s.x2 * s.secret % s.p) % s.p ∧
    s' = { (zkp H s (v * s.remote_gx1 % s.p * s.remote_gx2 % s.p)
              (s.x2 * s.secret % s.p)
              (some ((v * s.remote_gx1 % s.p * s.remote_gx2 % s.p) ^
                (s.x2 * s.secret % s.p) % s.p))).2 with
            A? := some ((v * s.remote_gx1 % s.p * s.remote_gx2 % s.p) ^
              (s.x2 * s.secret % s.p) % s.p),
            zkp_A? := some (zkp H s (v * s.remote_gx1 % s.p * s.remote_gx2 % s.p)
              (s.x2 * s.secret % s.p)
              (some ((v * s.remote_gx1 % s.p * s.remote_gx2 % s.p) ^
                (s.x2 * s.secret % s.p) % s.p))).1 } := by
  unfold two at h
  cases hct : computeTwo H s with
  | mk e st =>
    rw [hct] at h
    cases e with
    | some e => exact absurd h (by simp)
    | none =>
      unfold computeTwo at hct
      split at hct
      · exact absurd hct (by simp)
      · split at hct
        · exact absurd hct (by simp)
        · rw [gx1prop_cached H s v hc] at hct
          dsimp only at hct
          injection hct with _ hst
          subst hst
          injection h with hm hs'
          injection hm with hmA
          constructor
          · rw [← hmA]
            rfl
          · rw [← hs']
            rfl

/-- A successful verified bundled `process_two` commits `remote_A` and its
proof over the state whose lazy `gx1`/`gx2` may have been computed while
reconstructing the expected generator. -/
theorem processTwo_dict_ok (H : HashFn) (s : Session) (m : Round2Msg) (s' : Session)
    (h : processTwo H s (some m) none none true = (none, s')) :
    s' = commitTwo (gx2prop H (gx1prop H s).2).2 (some m.A) (some m.zkp_A) := by
  unfold processTwo at h
  split at h
  · exact absurd h (by simp)
  · split at h
    · exact absurd h (by simp)
    · split at h
      · rename_i d heq
        injection heq with heq'
        subst heq'
        split at h
        · exact absurd h (by simp)
        · split at h
          · dsimp only at h
            split at h
            · exact absurd h (by simp)
            · injection h with _ h2
              exact h2.symm
          · rename_i hv
            exact absurd rfl hv
      · rename_i heq
        exact absurd heq (by simp)

/-- With the secret at most `q`, the key-derivation exponent is nonnegative
and Python's `pow` reduces to the natural-number power. -/
theorem powModInt_of_le (b x q s p : Nat) (h : s ≤ q) :
    powModInt b ((x : Int) * ((q : Int) - (s : Int))) p =
      some (b ^ (x * (q - s)) % p) := by
  unfold powModInt powMod
  rw [if_pos (mul_nonneg (Int.natCast_nonneg x) (by omega)), toNat_mul_sub x q s h]

/-- Closed form of `_compute_three` on a session ready for key derivation. -/
theorem computeThree_of (s : Session) (a : Nat) (hW : s.waiting_two = false)
    (hA : s.remote_A = some a) (hq : s.secret ≤ s.q) :
    computeThree s = (none,
      { s with K? := some ((a * (s.remote_gx2 ^ (s.x2 * (s.q - s.secret)) % s.p)
          % s.p) ^ s.x2 % s.p) }) := by
  unfold computeThree
  rw [hW]
  dsimp only
  rw [powModInt_of_le s.remote_gx2 s.x2 s.q s.secret s.p hq, hA]
  rfl

/-- Closed form of the `K` property on a session ready for key derivation. -/
theorem Kprop_of (s : Session) (a : Nat) (hK : s.K? = none)
    (hW : s.waiting_two = false) (hA : s.remote_A = some a)
    (hq : s.secret ≤ s.q) :
    Kprop s = .ok ((a * (s.remote_gx2 ^ (s.x2 * (s.q - s.secret)) % s.p) % s.p)
        ^ s.x2 % s.p,
      { s with K? := some ((a * (s.remote_gx2 ^ (s.x2 * (s.q - s.secret)) % s.p)
          % s.p) ^ s.x2 % s.p) }) := by
  unfold Kprop
  rw [hK, computeThree_of s a hW hA hq]
  rfl

/-- The value returned by a successful `K` read on a ready session. -/
theorem Kprop_val (s4 : Session) (a : Nat) (r : Nat × Session)
    (h : Kprop s4 = .ok r) (hK : s4.K? = none) (hW : s4.waiting_two = false)
    (hA : s4.remote_A = some a) (hq : s4.secret ≤ s4.q) :
    r.1 = (a * (s4.remote_gx2 ^ (s4.x2 * (s4.q - s4.secret)) % s4.p) % s4.p)
        ^ s4.x2 % s4.p := by
  rw [Kprop_of s4 a hK hW hA hq] at h
  injection h with h'
  rw [← h']

/-- C1 counterexample: key agreement can fail on a parameter set satisfying
every invariant the spec states for parameter sets and sessions.  With
`p = 23`, `q = 11`, `g = 2` (`2` has order `11` modulo `23`), exponents and
secret all in the constructor ranges (`x2 ∈ [1, q)`, `secret ∈ [0, q)`), the
canonical verified exchange completes but the two derived keys differ
(`1 ≠ 12`): the source reduces the round-2 exponent `x2·secret` modulo `p`
rather than `q`, and here `x2·secret = 100 ≥ p`.  The shipped presets avoid
this because their `q² ≤ p`. -/
theorem run_exchange_overflow :
    (2 : Nat) ^ 11 % 23 = 1 ∧ (10 : Nat) < 11 ∧ (7 : Nat) < 11 ∧
    runExchange constHash 23 2 11 [97] [98] 3 10 5 7 10 rngA rngB =
      .ok (1, 12) ∧ (1 : Nat) ≠ 12 :=
  ⟨by decide, by decide, by decide, rfl, by decide⟩

set_option maxHeartbeats 1000000 in
/-- C1 (amended): for every pair of sessions over the same parameter set —
with the parameter-set invariants `g ^ q ≡ 1 (mod p)` and additionally
`q² ≤ p` (true of every shipped preset, and necessary by the preceding
counterexample) — the same in-range secret, exponents drawn in the
constructor's ranges and distinct signer identities, whenever the canonical
verified round1 → round1, round2 → round2 exchange completes, the two derived
keys are equal.  In this pure embedding the sessions interact only through the
exchanged message values, so every interleaving of the per-session steps
produces exactly these two keys; the canonical sequencing therefore covers
both interleavings, and swapping the roles of the parties is the same theorem
with its arguments exchanged. -/
theorem run_exchange_key_agreement (H : HashFn) (p g q : Nat) (ida idb : Bytes)
    (x1a x2a x1b x2b s : Nat) (ra rb : Rng) (ka kb : Nat)
    (hp : 1 < p) (hq0 : 0 < q) (hqp : q * q ≤ p) (hg : g ^ q % p = 1)
    (hids : ida ≠ idb) (hx2a : x2a < q) (hx2b : x2b < q) (hs : s < q)
    (h : runExchange H p g q ida idb x1a x2a x1b x2b s ra rb = .ok (ka, kb)) :
    ka = kb := by
  simp only [runExchange] at h
  split at h
  · exact absurd h (by simp)
  rename_i sa1 hqa
  have e1 := setSecret_ok _ _ _ hqa
  subst e1
  split at h
  · exact absurd h (by simp)
  rename_i sb1 hqb
  have e2 := setSecret_ok _ _ _ hqb
  subst e2
  split at h
  · exact absurd h (by simp)
  rename_i sa2 hp1a
  have e3 := processOne_dict_ok _ _ _ _ hp1a
  subst e3
  split at h
  · exact absurd h (by simp)
  rename_i sb2 hp1b
  have e4 := processOne_dict_ok _ _ _ _ hp1b
  subst e4
  split at h
  · exact absurd h (by simp)
  rename_i m2a sa3 h2a
  obtain ⟨hm2a, e5⟩ := two_ok H _ _ _ _ rfl h2a
  subst e5
  split at h
  · exact absurd h (by simp)
  rename_i m2b sb3 h2b
  obtain ⟨hm2b, e6⟩ := two_ok H _ _ _ _ rfl h2b
  subst e6
  split at h
  · exact absurd h (by simp)
  rename_i sa4 hp2a
  have e7 := processTwo_dict_ok _ _ _ _ hp2a
  subst e7
  split at h
  · exact absurd h (by simp)
  rename_i sb4 hp2b
  have e8 := processTwo_dict_ok _ _ _ _ hp2b
  subst e8
  split at h
  · exact absurd h (by simp)
  rename_i kpa heqKa
  split at h
  · exact absurd h (by simp)
  rename_i kpb heqKb
  injection h with h12
  injection h12 with hka hkb
  subst hka
  subst hkb
  have hva := Kprop_val _ _ _ heqKa rfl rfl rfl (Nat.le_of_lt hs)
  have hvb := Kprop_val _ _ _ heqKb rfl rfl rfl (Nat.le_of_lt hs)
  rw [hva, hvb, hm2a, hm2b]
  have hba : x2a * s < p :=
    lt_of_lt_of_le (Nat.mul_lt_mul'' hx2a hs) hqp
  have hbb : x2b * s < p :=
    lt_of_lt_of_le (Nat.mul_lt_mul'' hx2b hs) hqp
  show ((g ^ x1b % p * (g ^ x1a % p % p) % p * (g ^ x2a % p % p) % p)
          ^ (x2b * s % p) % p *
        ((g ^ x2b % p % p) ^ (x2a * (q - s)) % p) % p) ^ x2a % p =
      ((g ^ x1a % p * (g ^ x1b % p % p) % p * (g ^ x2b % p % p) % p)
          ^ (x2a * s % p) % p *
        ((g ^ x2a % p % p) ^ (x2b * (q - s)) % p) % p) ^ x2b % p
  simp only [mod_mod]
  exact key_symmetry p g q x1a x2a x1b x2b s hp hg (Nat.le_of_lt hs) hba hbb

/-- Witness for `run_exchange_key_agreement`: a complete verified exchange in
the tiny group, where both sessions derive the key 9. -/
theorem run_exchange_key_agreement_witness :
    runExchange constHash 13 3 3 [97] [98] 0 1 1 2 1 rngA rngB = .ok (9, 9) ∧
    (9 : Nat) = 9 :=
  ⟨rfl, run_exchange_key_agreement constHash 13 3 3 [97] [98] 0 1 1 2 1 rngA rngB
    9 9 (by decide) (by decide) (by decide) (by decide) (by decide) (by decide)
    (by decide) (by decide) rfl⟩

/-- Witness for `process_one_unreduced`: the success conjunct at a concrete
unverified call. -/
theorem process_one_unreduced_witness :
    ({ tinySession [97] 1 1 rngA with
        remote_gx1 := 3, remote_gx2 := 9, waiting_one := false } : Session).remote_gx1 =
      16 % (tinySession [97] 1 1 rngA).p ∧
    ({ tinySession [97] 1 1 rngA with
        remote_gx1 := 3, remote_gx2 := 9, waiting_one := false } : Session).remote_gx2 =
      22 % (tinySession [97] 1 1 rngA).p :=
  (process_one_unreduced constHash (tinySession [97] 1 1 rngA) 16 22 0 none none
    false default
    { tinySession [97] 1 1 rngA with
        remote_gx1 := 3, remote_gx2 := 9, waiting_one := false }).2.2 (by decide)

end JPake
